import Mathlib

/-!
Verification of the scraping_dojo_07_2023 repository against its specification.

The development shallowly embeds the pure logic of the repository:
- `Scraper.validate_element` (src/scraper.py, lines 130-168) and
  `Parser.validate_element` (src/parser.py, lines 8-49): the element-value
  coercion routines, embedded over Python string/slice semantics;
- `Scraper.scrape_data_from_page` (src/scraper.py, lines 99-128): single-page
  extraction over an abstract page (a map from selector to matched texts);
- `Scraper.scrape_data_from_all_pages` and `Scraper.delayed_click`
  (src/scraper.py, lines 78-97 and 199-228): the pagination walk over an
  abstract chain of pages;
- `load_mapping_file` (src/run.py, lines 61-79) and Python item access, for
  mapping loading;
- `Scraper.parse_scraped_data` (src/scraper.py, lines 170-197) and
  `Parser.dict_with_lists_to_list_of_dicts` (src/parser.py, lines 52-78):
  columnar-to-row record assembly.

Fallible Python code is embedded as `Except PyErr`, where `PyErr` names the
Python exception class raised. Machine-level details (the browser driver,
network, files) are abstracted as explicit inputs.
-/

/-- Python exception kinds raised by the embedded code. `timeoutError` covers
both the built-in TimeoutError raised by `delayed_click` and the Playwright
TimeoutError raised by `wait_for_selector` / `click`. -/
inductive PyErr where
  | valueError
  | indexError
  | unboundLocal
  | timeoutError
  | keyError
  | typeError
  | fileNotFound
deriving DecidableEq, Repr

/-- Value returned by `validate_element`: a Python `str` or a `list[str]`. -/
inductive Value where
  | vstr (s : String)
  | vlist (ws : List String)
deriving DecidableEq, Repr

deriving instance DecidableEq for Except

/-- Embeds Python `s.split(sep)` for a one-character separator `sep`:
splits at every occurrence, keeping empty parts, so the result always has
one more part than there are separator occurrences. -/
def splitOnChar (c : Char) : List Char → List (List Char)
  | [] => [[]]
  | x :: xs =>
    let r := splitOnChar c xs
    if x = c then [] :: r
    else (x :: r.headD []) :: r.tail

/-- Helper for `pySplit`: walks the characters accumulating the current word
(in reverse), emitting a word at each whitespace run boundary. -/
def pySplitAux : List Char → List Char → List String
  | [], cur => if cur = [] then [] else [String.mk cur.reverse]
  | c :: cs, cur =>
    if c.isWhitespace then
      (if cur = [] then pySplitAux cs [] else String.mk cur.reverse :: pySplitAux cs [])
    else pySplitAux cs (c :: cur)

/-- Embeds Python `s.split()` with no argument: splits on runs of whitespace
and drops empty parts. -/
def pySplit (s : String) : List String := pySplitAux s.data []

/-- Effective index of a Python slice bound for a sequence of length `n`:
negative bounds count from the end, and both directions clamp into `[0, n]`. -/
def pySliceIdx (n : Nat) (i : Int) : Nat :=
  if i < 0 then (i + n).toNat else min i.toNat n

/-- Embeds the Python slice `xs[start:stop]` (step 1). -/
def pySlice (start stop : Int) (xs : List α) : List α :=
  let s := pySliceIdx xs.length start
  let e := pySliceIdx xs.length stop
  (xs.drop s).take (e - s)

/-- Embeds Python `int(t)` applied to a one-character string `t`, which is
how both coercion variants read slice bounds (`temp[1][0]`, `temp[1][-2]`):
it succeeds exactly on a decimal digit, else raises ValueError (`none`). -/
def charInt? (c : Char) : Option Int :=
  if c.isDigit then some ((c.toNat : Int) - 48) else none

/-- Helper for `containsSub`: checks that the first list is an initial
segment of the second list. -/
def prefixMatch : List Char → List Char → Bool
  | [], _ => true
  | _ :: _, [] => false
  | a :: as, b :: bs => a == b && prefixMatch as bs

/-- Embeds the Python substring test `sub in s` used by the membership check
at src/parser.py line 30: `su` occurs contiguously somewhere in the list. -/
def containsSub (su : List Char) : List Char → Bool
  | [] => prefixMatch su []
  | s :: rest => prefixMatch su (s :: rest) || containsSub su rest

/-- Shared tail of both `validate_element` variants (src/scraper.py lines
160-168 and src/parser.py lines 41-49), dispatching on the possibly
rewritten `data_type` after the bracket-stripping block. `bounds` is
`some (slice_start, slice_end)` when the bracket block assigned the slice
locals, `none` when they were left unassigned, in which case the `"list"`
branch reads an unbound local and raises UnboundLocalError. The final
branch embeds `elif 'list' and '[' in data_type`, whose Python value is
that of `'[' in data_type`, returning
`str(element.split('[')[0]).split()`. -/
def dispatchType (data_type : String) (bounds : Option (Int × Int)) (element : String) :
    Except PyErr Value :=
  if data_type = "string" then .ok (.vstr element)
  else if data_type = "list" then
    match bounds with
    | some (s, e) => .ok (.vlist (pySlice s e (pySplit element)))
    | none => .error .unboundLocal
  else if data_type.data.contains '[' then
    .ok (.vlist (pySplit (String.mk ((splitOnChar '[' element.data).headD []))))
  else .error .valueError

/-- Embeds `Scraper.validate_element` (src/scraper.py lines 130-168).
When `'[' in data_type`, the code splits on the bracket, keeps the head as
the new `data_type`, reads `slice_start = int(temp[1][0])` with no handler
(IndexError when `temp[1]` is empty, ValueError when the character is not a
digit), and reads `slice_end = int(temp[1][-2])` inside a bare
try/except falling back to `-1`. The remaining dispatch is shared with the
Parser variant as `dispatchType`. -/
def Scraper.validate_element (data_type : String) (element : String) : Except PyErr Value :=
  if data_type.data.contains '[' then
    let temp := splitOnChar '[' data_type.data
    let dt := String.mk (temp.headD [])
    let t1 := temp.getD 1 []
    match t1.head? with
    | none => .error .indexError
    | some c0 =>
      match charInt? c0 with
      | none => .error .valueError
      | some slice_start =>
        let slice_end : Int :=
          match (if 2 ≤ t1.length then t1[t1.length - 2]? else none) with
          | none => -1
          | some c1 => (charInt? c1).getD (-1)
        dispatchType dt (some (slice_start, slice_end)) element
  else
    dispatchType data_type none element

/-- Embeds `Parser.validate_element` (src/parser.py lines 8-49). It differs
from the Scraper variant in the guard (`'list[' in data_type` rather than
`'[' in data_type`) and in wrapping the `slice_start` read in a try/except
falling back to `0`. The dispatch tail is the shared `dispatchType`. -/
def Parser.validate_element (data_type : String) (element : String) : Except PyErr Value :=
  if containsSub "list[".data data_type.data then
    let temp := splitOnChar '[' data_type.data
    let dt := String.mk (temp.headD [])
    let t1 := temp.getD 1 []
    let slice_start : Int :=
      match t1.head? with
      | none => 0
      | some c0 => (charInt? c0).getD 0
    let slice_end : Int :=
      match (if 2 ≤ t1.length then t1[t1.length - 2]? else none) with
      | none => -1
      | some c1 => (charInt? c1).getD (-1)
    dispatchType dt (some (slice_start, slice_end)) element
  else
    dispatchType data_type none element

/-- Abstract view of the paginated site as the walk observes it: each node
carries the data that single-page extraction produces on that page together
with the state of the next-page control. `last` means the control is absent
or not visible at the while check; `broken` means it reports visible at the
while check but activation fails (hidden again at click time, or the click
itself times out); `next` means the click succeeds and advances. -/
inductive PageChain (D : Type) where
  | last (d : D)
  | broken (d : D)
  | next (d : D) (rest : PageChain D)

/-- Embeds `Scraper.delayed_click` (src/scraper.py lines 78-97): when the
element reports visible at click time the method sleeps a random bounded
time (no observable effect here) and clicks; otherwise it raises
TimeoutError. -/
def Scraper.delayed_click (visibleAtClick : Bool) : Except PyErr Unit :=
  if visibleAtClick then .ok () else .error .timeoutError

/-- Embeds `Scraper.scrape_data_from_all_pages` (src/scraper.py lines
199-228): the generator yields the extraction of the initial page, then,
while the next-page control is visible, performs `delayed_click` and yields
the extraction of the page it advanced to. The result collects the yielded
per-page results, paired with `some e` when the walk aborts by raising `e`
(`none` for the normal not-visible termination). An exception raised by
`delayed_click` is not caught anywhere in the generator. -/
def Scraper.scrape_data_from_all_pages {D : Type} : PageChain D → List D × Option PyErr
  | .last d => ([d], none)
  | .broken d =>
    match Scraper.delayed_click false with
    | .error e => ([d], some e)
    | .ok _ => ([d], none)
  | .next d rest =>
    match Scraper.delayed_click true with
    | .error e => ([d], some e)
    | .ok _ =>
      let r := Scraper.scrape_data_from_all_pages rest
      (d :: r.1, r.2)

/-- Chain of pages whose next-control clicks all succeed, ending in the
terminal page `tail`: the walk performs `ds.length` successful transitions
before reaching `tail`. -/
def chainPages {D : Type} (ds : List D) (tail : PageChain D) : PageChain D :=
  ds.foldr .next tail

/-- Miniature JSON value, the shape of a loaded mapping document. -/
inductive JVal where
  | jstr (s : String)
  | jarr (xs : List JVal)
  | jobj (fields : List (String × JVal))

/-- Embeds `load_mapping_file` (src/run.py lines 61-79), identical to the
mapping load in the Scraper constructor (src/scraper.py lines 58-66): the
parsed JSON document is returned as is; the only failure is a missing file,
re-raised as FileNotFoundError. No key or shape validation happens at load
time. The argument is `none` when the file is absent, `some doc` when it
parses to `doc`. -/
def load_mapping_file : Option JVal → Except PyErr JVal
  | none => .error .fileNotFound
  | some doc => .ok doc

/-- Embeds the Python subscript `obj[key]` with a string key on a loaded
JSON document, as used on the mapping at src/scraper.py lines 113 and 212:
a missing key in a JSON object raises KeyError; subscripting a string or an
array with a string key raises TypeError. -/
def pyGetItem (v : JVal) (k : String) : Except PyErr JVal :=
  match v with
  | .jobj fields =>
    match fields.lookup k with
    | some x => .ok x
    | none => .error .keyError
  | _ => .error .typeError

/-- One entry of the `get` collection of the mapping document, as consumed
by `scrape_data_from_page` (src/scraper.py lines 113-116). -/
structure FieldItem where
  name : String
  xpath : String
  type : String
deriving DecidableEq, Repr

/-- Embeds the Python dict assignment `d[k] = v` on an association list with
unique keys: replaces the value at an existing key in place, otherwise
appends the pair (insertion order). `result[i].update({key: element})` in
the record assemblers is the same operation. -/
def dictUpdate (d : List (String × α)) (k : String) (v : α) : List (String × α) :=
  match d with
  | [] => [(k, v)]
  | (k0, v0) :: rest => if k0 = k then (k, v) :: rest else (k0, v0) :: dictUpdate rest k v

/-- Loop of `Scraper.scrape_data_from_page` (src/scraper.py lines 113-126)
over the remaining field items, carrying the `scraped_data` dict. The page
is abstracted as the map from an XPath selector to the `inner_text` of each
matching element in DOM order. `page.wait_for_selector(xpath)` raises a
Playwright TimeoutError when no matching element appears before the
timeout, which in this static page model is the selector matching nothing;
the raise is not handled. A raise inside the per-element comprehension
`[self.validate_element(...) for element in elements]` propagates too. -/
def scrapeFields (page : String → List String) :
    List (String × List Value) → List FieldItem → Except PyErr (List (String × List Value))
  | scraped, [] => .ok scraped
  | scraped, item :: rest =>
    if page item.xpath = [] then .error .timeoutError
    else
      let elements := page item.xpath
      if elements.isEmpty then scrapeFields page scraped rest
      else
        match elements.mapM (fun t => Scraper.validate_element item.type t) with
        | .error e => .error e
        | .ok values => scrapeFields page (dictUpdate scraped item.name values) rest

/-- Embeds `Scraper.scrape_data_from_page` (src/scraper.py lines 99-128):
runs the field loop starting from the empty dict. -/
def Scraper.scrape_data_from_page (page : String → List String) (items : List FieldItem) :
    Except PyErr (List (String × List Value)) :=
  scrapeFields page [] items

/-- Inner loop of the record assemblers (src/scraper.py lines 190-195 and
src/parser.py lines 72-76): `for i, element in enumerate(values)` starting
at index `i`, updating record `i` in place when it already exists and
appending a fresh one-key record otherwise. -/
def addField (key : String) : Nat → List α → List (List (String × α)) → List (List (String × α))
  | _, [], result => result
  | i, v :: vs, result =>
    addField key (i + 1) vs
      (if i < result.length then result.set i (dictUpdate (result.getD i []) key v)
       else result ++ [[(key, v)]])

/-- Embeds `Parser.dict_with_lists_to_list_of_dicts` (src/parser.py lines
52-78): folds the per-field loop over the dict items in insertion order,
starting from the empty record list. -/
def Parser.dict_with_lists_to_list_of_dicts (data : List (String × List α)) :
    List (List (String × α)) :=
  data.foldl (fun result p => addField p.1 0 p.2 result) []

/-- Embeds `Scraper.parse_scraped_data` (src/scraper.py lines 170-197),
whose loop body is identical to `Parser.dict_with_lists_to_list_of_dicts`. -/
def Scraper.parse_scraped_data (data : List (String × List α)) :
    List (List (String × α)) :=
  data.foldl (fun result p => addField p.1 0 p.2 result) []

/-- Maximum length of the per-field value lists of a dict (0 when empty). -/
def maxLen (data : List (String × List α)) : Nat :=
  data.foldl (fun m p => max m p.2.length) 0

/-! ## Helper lemmas -/

theorem getD_of_le (l : List β) (j : Nat) (d : β) (h : l.length ≤ j) : l.getD j d = d := by
  induction l generalizing j with
  | nil => simp [List.getD]
  | cons x xs ih =>
    cases j with
    | zero => simp at h
    | succ j => simpa [List.getD] using ih j (by simpa using h)

theorem getD_set_self (l : List β) (i : Nat) (x d : β) (h : i < l.length) :
    (l.set i x).getD i d = x := by
  induction l generalizing i with
  | nil => simp at h
  | cons y ys ih =>
    cases i with
    | zero => simp [List.getD]
    | succ i => simpa [List.getD] using ih i (by simpa using h)

theorem getD_set_ne (l : List β) (i j : Nat) (x d : β) (h : i ≠ j) :
    (l.set i x).getD j d = l.getD j d := by
  induction l generalizing i j with
  | nil => simp [List.getD]
  | cons y ys ih =>
    cases i with
    | zero =>
      cases j with
      | zero => exact absurd rfl h
      | succ j => simp [List.getD]
    | succ i =>
      cases j with
      | zero => simp [List.getD]
      | succ j => simpa [List.getD] using ih i j (fun hc => h (by rw [hc]))

theorem getD_append_left (l m : List β) (j : Nat) (d : β) (h : j < l.length) :
    (l ++ m).getD j d = l.getD j d := by
  induction l generalizing j with
  | nil => simp at h
  | cons x xs ih =>
    cases j with
    | zero => simp [List.getD]
    | succ j => simpa [List.getD] using ih j (by simpa using h)

theorem getD_append_self (l : List β) (x d : β) : (l ++ [x]).getD l.length d = x := by
  induction l with
  | nil => simp [List.getD]
  | cons y ys ih => simp [List.getD, ih]

theorem dictUpdate_lookup_self (d : List (String × α)) (k : String) (v : α) :
    (dictUpdate d k v).lookup k = some v := by
  induction d with
  | nil => simp [dictUpdate, List.lookup]
  | cons p rest ih =>
    obtain ⟨k0, v0⟩ := p
    by_cases h : k0 = k
    · subst h
      simp [dictUpdate, List.lookup]
    · have hb : (k == k0) = false := beq_eq_false_iff_ne.mpr (Ne.symm h)
      simp [dictUpdate, h, List.lookup, hb, ih]

theorem dictUpdate_lookup_ne (d : List (String × α)) (k k0 : String) (v : α) (h : k0 ≠ k) :
    (dictUpdate d k v).lookup k0 = d.lookup k0 := by
  induction d with
  | nil =>
    have hb : (k0 == k) = false := beq_eq_false_iff_ne.mpr h
    simp [dictUpdate, List.lookup, hb]
  | cons p rest ih =>
    obtain ⟨k1, v1⟩ := p
    by_cases h1 : k1 = k
    · subst h1
      have hb : (k0 == k1) = false := beq_eq_false_iff_ne.mpr h
      simp [dictUpdate, List.lookup, hb]
    · by_cases h2 : k0 = k1
      · subst h2
        simp [dictUpdate, h1, List.lookup]
      · have hb : (k0 == k1) = false := beq_eq_false_iff_ne.mpr h2
        simp [dictUpdate, h1, List.lookup, hb, ih]

theorem addField_length (key : String) (vs : List α) :
    ∀ (i : Nat) (result : List (List (String × α))), i ≤ result.length →
      (addField key i vs result).length = max result.length (i + vs.length) := by
  induction vs with
  | nil =>
    intro i result h
    simp only [addField, List.length_nil]
    omega
  | cons v vs ih =>
    intro i result h
    simp only [addField, List.length_cons]
    by_cases hlt : i < result.length
    · rw [if_pos hlt, ih (i + 1) _ (by simpa using hlt)]
      simp only [List.length_set]
      omega
    · rw [if_neg hlt, ih (i + 1) _ (by simp; omega)]
      simp only [List.length_append, List.length_singleton]
      omega

theorem addField_lookup_ne (key k0 : String) (h : k0 ≠ key) (vs : List α) :
    ∀ (i : Nat) (result : List (List (String × α))) (j : Nat),
      ((addField key i vs result).getD j []).lookup k0 = (result.getD j []).lookup k0 := by
  induction vs with
  | nil =>
    intro i result j
    simp [addField]
  | cons v vs ih =>
    intro i result j
    simp only [addField]
    rw [ih]
    by_cases hlt : i < result.length
    · rw [if_pos hlt]
      by_cases hj : i = j
      · subst hj
        rw [getD_set_self _ _ _ _ hlt, dictUpdate_lookup_ne _ _ _ _ h]
      · rw [getD_set_ne _ _ _ _ _ hj]
    · rw [if_neg hlt]
      by_cases hj : j < result.length
      · rw [getD_append_left _ _ _ _ hj]
      · by_cases hj2 : j = result.length
        · subst hj2
          rw [getD_append_self]
          have hb : (k0 == key) = false := beq_eq_false_iff_ne.mpr h
          simp [List.lookup, hb]
        · rw [getD_of_le _ _ _ (by simp; omega), getD_of_le _ _ _ (by omega)]

theorem addField_lookup (key : String) (vs : List α) :
    ∀ (i : Nat) (result : List (List (String × α))), i ≤ result.length →
      (∀ j, i ≤ j → ((result.getD j []).lookup key) = none) →
      ∀ j, ((addField key i vs result).getD j []).lookup key =
        if j < i then (result.getD j []).lookup key else vs[j - i]? := by
  induction vs with
  | nil =>
    intro i result hle habs j
    simp only [addField]
    by_cases hj : j < i
    · rw [if_pos hj]
    · rw [if_neg hj, habs j (by omega)]
      simp
  | cons v vs ih =>
    intro i result hle habs j
    simp only [addField]
    by_cases hlt : i < result.length
    · have hset :
          ∀ j, i + 1 ≤ j →
            (((result.set i (dictUpdate (result.getD i []) key v)).getD j []).lookup key)
              = none := by
        intro j hj
        rw [getD_set_ne _ _ _ _ _ (by omega)]
        exact habs j (by omega)
      rw [if_pos hlt, ih (i + 1) _ (by simpa using hlt) hset j]
      by_cases hj : j < i
      · rw [if_pos (by omega : j < i + 1), if_pos hj, getD_set_ne _ _ _ _ _ (by omega)]
      · by_cases hj2 : j = i
        · subst hj2
          rw [if_pos (by omega : j < j + 1), if_neg hj,
            getD_set_self _ _ _ _ hlt, dictUpdate_lookup_self]
          simp [Nat.sub_self]
        · rw [if_neg (by omega : ¬j < i + 1), if_neg hj]
          have hsplit : j - i = (j - (i + 1)) + 1 := by omega
          rw [hsplit]
          simp
    · have happ :
          ∀ j, i + 1 ≤ j →
            (((result ++ [[(key, v)]]).getD j []).lookup key) = none := by
        intro j hj
        rw [getD_of_le _ _ _ (by simp; omega)]
        rfl
      rw [if_neg hlt, ih (i + 1) _ (by simp; omega) happ j]
      by_cases hj : j < i
      · rw [if_pos (by omega : j < i + 1), if_pos hj, getD_append_left _ _ _ _ (by omega)]
      · by_cases hj2 : j = i
        · subst hj2
          have hi : j = result.length := by omega
          rw [if_pos (by omega : j < j + 1), if_neg hj, hi, getD_append_self]
          simp [List.lookup, beq_iff_eq, Nat.sub_self]
        · rw [if_neg (by omega : ¬j < i + 1), if_neg hj]
          have hsplit : j - i = (j - (i + 1)) + 1 := by omega
          rw [hsplit]
          simp

theorem foldl_addField_lookup_of_notmem (k : String) (data : List (String × List α))
    (h : ∀ p ∈ data, p.1 ≠ k) :
    ∀ (result : List (List (String × α))) (j : Nat),
      (((data.foldl (fun result p => addField p.1 0 p.2 result) result).getD j []).lookup k)
        = ((result.getD j []).lookup k) := by
  induction data with
  | nil => intro result j; rfl
  | cons p rest ih =>
    intro result j
    simp only [List.foldl_cons]
    rw [ih (fun q hq => h q (List.mem_cons_of_mem p hq)),
      addField_lookup_ne p.1 k (Ne.symm (h p (List.mem_cons_self p rest))) p.2 0 result j]

theorem dwl_lookup {α : Type} (data : List (String × List α))
    (h : (data.map Prod.fst).Nodup) (k : String) (vs : List α)
    (hm : (k, vs) ∈ data) (j : Nat) :
    ((Parser.dict_with_lists_to_list_of_dicts data).getD j []).lookup k = vs[j]? := by
  obtain ⟨l1, l2, rfl⟩ := List.append_of_mem hm
  have hnd : (l1.map Prod.fst ++ k :: l2.map Prod.fst).Nodup := by
    simpa using h
  have hkeys : k ∉ l1.map Prod.fst ∧ k ∉ l2.map Prod.fst := by
    constructor
    · intro hc
      exact List.disjoint_of_nodup_append hnd hc (List.mem_cons_self _ _)
    · have hcons := hnd.of_append_right
      rw [List.nodup_cons] at hcons
      exact hcons.1
  have hzero : ∀ j,
      (((l1.foldl (fun result p => addField p.1 0 p.2 result) []).getD j []).lookup k)
        = none := by
    intro j
    rw [foldl_addField_lookup_of_notmem k l1
      (fun p hp hc => hkeys.1 (hc ▸ List.mem_map_of_mem Prod.fst hp)) [] j]
    rfl
  unfold Parser.dict_with_lists_to_list_of_dicts
  rw [List.foldl_append, List.foldl_cons,
    foldl_addField_lookup_of_notmem k l2
      (fun p hp hc => hkeys.2 (hc ▸ List.mem_map_of_mem Prod.fst hp)),
    addField_lookup k vs 0 _ (Nat.zero_le _) (fun j _ => hzero j) j]
  simp

theorem dwl_length {α : Type} (data : List (String × List α)) :
    (Parser.dict_with_lists_to_list_of_dicts data).length = maxLen data := by
  suffices hgen : ∀ result : List (List (String × α)),
      (data.foldl (fun result p => addField p.1 0 p.2 result) result).length
        = data.foldl (fun m p => max m p.2.length) result.length by
    exact hgen []
  induction data with
  | nil => intro result; rfl
  | cons p rest ih =>
    intro result
    simp only [List.foldl_cons]
    rw [ih, addField_length p.1 p.2 0 result (Nat.zero_le _)]
    simp

theorem scrape_all_chain_last {D : Type} (ds : List D) (d : D) :
    Scraper.scrape_data_from_all_pages (chainPages ds (.last d)) = (ds ++ [d], none) := by
  induction ds with
  | nil => rfl
  | cons x xs ih =>
    simp [chainPages, Scraper.scrape_data_from_all_pages, Scraper.delayed_click] at ih ⊢
    simp [ih]

theorem scrape_all_chain_broken {D : Type} (ds : List D) (d : D) :
    Scraper.scrape_data_from_all_pages (chainPages ds (.broken d)) =
      (ds ++ [d], some PyErr.timeoutError) := by
  induction ds with
  | nil => rfl
  | cons x xs ih =>
    simp [chainPages, Scraper.scrape_data_from_all_pages, Scraper.delayed_click] at ih ⊢
    simp [ih]

theorem scrape_all_yields_ge_one {D : Type} (p : PageChain D) :
    1 ≤ (Scraper.scrape_data_from_all_pages p).1.length := by
  induction p with
  | last d => simp [Scraper.scrape_data_from_all_pages]
  | broken d => simp [Scraper.scrape_data_from_all_pages, Scraper.delayed_click]
  | next d rest ih => simp [Scraper.scrape_data_from_all_pages, Scraper.delayed_click]

/-! ## Claims -/

/-- C1: the claim states that coercing with descriptor `list[start:end]`
returns `words[start:end]` under Python slice semantics, in particular that
`"a b c d"` under `list[1:-1]` gives `["b", "c"]`. The code instead parses
the end bound from the single character `temp[1][-2]`, dropping the minus
sign of `-1`, so it slices `words[1:1]` and returns `[]` in both variants,
while the Python slice the claim (and the function docstring) requires is
`["b", "c"]`. -/
theorem C1_slice_end_digit_bug :
    Scraper.validate_element "list[1:-1]" "a b c d" = .ok (.vlist []) ∧
    Parser.validate_element "list[1:-1]" "a b c d" = .ok (.vlist []) ∧
    pySlice 1 (-1) (pySplit "a b c d") = ["b", "c"] := by
  refine ⟨by decide, by decide, by decide⟩

/-- C8: the claim states that descriptor `list` splits the raw text on
whitespace runs and returns the full word sequence. In both variants the
`"list"` branch evaluates `split()[slice_start:slice_end]` but the slice
locals are only assigned inside the bracket block, which is skipped for the
bare descriptor `list`, so the code raises UnboundLocalError; the full word
sequence promised by the docstring would be `["alpha", "beta"]`. -/
theorem C8_bare_list_unbound_local :
    Scraper.validate_element "list" "alpha beta" = .error .unboundLocal ∧
    Parser.validate_element "list" "alpha beta" = .error .unboundLocal ∧
    pySplit "alpha beta" = ["alpha", "beta"] := by
  refine ⟨by decide, by decide, by decide⟩

/-- C2 counterexample: the claim states coercion is total and never raises,
but both variants raise ValueError on a descriptor that is not `string`,
not `list`, and has no bracket. -/
theorem C2_totality_counterexample :
    Scraper.validate_element "duck" "x" = .error .valueError ∧
    Parser.validate_element "duck" "x" = .error .valueError := by
  refine ⟨by decide, by decide⟩

/-- C2 (amended): coercion is not total. For every raw input: descriptor
`string` and digit-bounded `list[n:m]` descriptors return values; a parse
failure of the end bound falls back to `-1` in both variants (shown for
`list[1:]`); but a parse failure of the start bound falls back to `0` only
in the Parser variant, while the Scraper variant raises ValueError (shown
for `list[:3]`); the bare descriptor `list` raises UnboundLocalError; and
unrecognized descriptors raise ValueError. -/
theorem C2_coercion_partiality (element : String) :
    Scraper.validate_element "string" element = .ok (.vstr element) ∧
    Scraper.validate_element "list[1:3]" element = .ok (.vlist (pySlice 1 3 (pySplit element))) ∧
    Scraper.validate_element "list[1:]" element = .ok (.vlist (pySlice 1 (-1) (pySplit element))) ∧
    Scraper.validate_element "list[:3]" element = .error .valueError ∧
    Parser.validate_element "list[:3]" element = .ok (.vlist (pySlice 0 3 (pySplit element))) ∧
    Scraper.validate_element "list" element = .error .unboundLocal ∧
    Parser.validate_element "list" element = .error .unboundLocal ∧
    Scraper.validate_element "duck" element = .error .valueError ∧
    Parser.validate_element "duck" element = .error .valueError := by
  refine ⟨rfl, rfl, rfl, rfl, rfl, rfl, rfl, rfl, rfl⟩

/-- C9 counterexample: the claim states the two coercion variants always
produce the same outcome. On descriptor `string[1:2]` (a bracket without
the substring `list[`) the Scraper variant strips the bracket and returns
the raw text as a string, while the Parser variant keeps the descriptor,
falls into its element-splitting branch, and returns a word list. -/
theorem C9_variants_differ :
    Scraper.validate_element "string[1:2]" "a b" ≠ Parser.validate_element "string[1:2]" "a b" ∧
    Scraper.validate_element "string[1:2]" "a b" = .ok (.vstr "a b") ∧
    Parser.validate_element "string[1:2]" "a b" = .ok (.vlist ["a", "b"]) := by
  refine ⟨by decide, by decide, by decide⟩

/-- C9 (amended): the two variants agree on every descriptor containing
neither a bracket nor the substring `list[`, and on every descriptor that
contains `list[`, whose bracket split is `list` followed by a remainder
starting with a digit (so the start bound parses); they can differ when a
descriptor has a bracket without `list[`, or when the start bound fails to
parse (Scraper raises, Parser falls back to 0). -/
theorem C9_variants_agree_on_common :
    (∀ (data_type element : String),
       data_type.data.contains '[' = false →
       containsSub "list[".data data_type.data = false →
       Scraper.validate_element data_type element = Parser.validate_element data_type element) ∧
    (∀ (data_type element : String) (s : List Char) (c : Char) (v : Int),
       data_type.data.contains '[' = true →
       containsSub "list[".data data_type.data = true →
       (splitOnChar '[' data_type.data).headD [] = "list".data →
       (splitOnChar '[' data_type.data).getD 1 [] = s →
       s.head? = some c →
       charInt? c = some v →
       Scraper.validate_element data_type element = Parser.validate_element data_type element) := by
  constructor
  · intro data_type element h1 h2
    simp only [Scraper.validate_element, Parser.validate_element, h1, h2]
    rfl
  · intro data_type element s c v h1 h2 h3 h4 h5 h6
    simp only [Scraper.validate_element, Parser.validate_element, h1, h2, h3, h4, h5, h6,
      Option.getD_some]

/-- C9 witness: the agreement theorem applied at the concrete descriptors
`string` (bracket-free) and `list[1:3]` (digit-bounded slice). -/
theorem C9_variants_agree_on_common_witness :
    Scraper.validate_element "string" "a b" = Parser.validate_element "string" "a b" ∧
    Scraper.validate_element "list[1:3]" "a b c d" = Parser.validate_element "list[1:3]" "a b c d" :=
  ⟨C9_variants_agree_on_common.1 "string" "a b" (by decide) (by decide),
   C9_variants_agree_on_common.2 "list[1:3]" "a b c d" "1:3]".data '1' 1
     (by decide) (by decide) (by decide) (by decide) (by decide) (by decide)⟩

/-- C3: the pagination walk yields at least one per-page result for every
page chain (the first extraction is yielded before the control is ever
checked), and a chain of N-1 succeeding next-transitions ending in a page
without a visible control yields exactly the N per-page results in order,
terminating normally. -/
theorem C3_pagination_yields :
    (∀ (D : Type) (p : PageChain D),
       1 ≤ (Scraper.scrape_data_from_all_pages p).1.length) ∧
    (∀ (D : Type) (ds : List D) (d : D),
       Scraper.scrape_data_from_all_pages (chainPages ds (.last d)) = (ds ++ [d], none) ∧
       (Scraper.scrape_data_from_all_pages (chainPages ds (.last d))).1.length
         = ds.length + 1) := by
  refine ⟨fun D p => scrape_all_yields_ge_one p, fun D ds d => ⟨scrape_all_chain_last ds d, ?_⟩⟩
  rw [scrape_all_chain_last ds d]
  simp

/-- C7: when the next-page control reports visible at the while check but
activation fails, `delayed_click` raises TimeoutError, the walk propagates
it (it is not caught and turned into normal termination), and the per-page
results yielded before the failure are exactly those of the corresponding
clean run: the prefix already produced is unaffected. -/
theorem C7_interaction_failure_propagates :
    (∀ (D : Type) (ds : List D) (d : D),
       Scraper.scrape_data_from_all_pages (chainPages ds (.broken d)) =
         (ds ++ [d], some PyErr.timeoutError) ∧
       (Scraper.scrape_data_from_all_pages (chainPages ds (.broken d))).1 =
         (Scraper.scrape_data_from_all_pages (chainPages ds (.last d))).1) ∧
    Scraper.delayed_click false = .error PyErr.timeoutError := by
  refine ⟨fun D ds d => ⟨scrape_all_chain_broken ds d, ?_⟩, rfl⟩
  rw [scrape_all_chain_broken ds d, scrape_all_chain_last ds d]

/-- C4 counterexample: the claim states that loading a mapping document
missing required keys (for instance the pagination block) fails with a
MappingError at load time. The loader performs no validation: the document
`{"get": []}` with no pagination key loads successfully, and the missing
key only surfaces as a KeyError when the mapping is subscripted later. -/
theorem C4_no_load_validation_counterexample :
    load_mapping_file (some (.jobj [("get", .jarr [])])) = .ok (.jobj [("get", .jarr [])]) ∧
    pyGetItem (.jobj [("get", .jarr [])]) "paginate" = .error .keyError := by
  exact ⟨rfl, rfl⟩

/-- C4 (amended): loading performs no schema validation at all: every parsed
document loads successfully, and only a missing file raises (a
FileNotFoundError, not a MappingError, which does not exist in the code).
Absent required keys surface later as KeyError when the mapping is
subscripted during extraction or pagination, and an invalid field type
string reaches the per-element extraction loop, where coercion raises
ValueError. -/
theorem C4_load_performs_no_validation :
    (∀ doc : JVal, load_mapping_file (some doc) = .ok doc) ∧
    load_mapping_file none = .error .fileNotFound ∧
    pyGetItem (.jobj []) "get" = .error .keyError ∧
    Scraper.scrape_data_from_page (fun _ => ["x"]) [⟨"f", "div", "duck"⟩] =
      .error .valueError := by
  refine ⟨fun doc => rfl, rfl, rfl, by decide⟩

/-- C5 counterexample: the claim states that when no element matching a
field appears before the wait times out, extraction returns an empty
sequence for that field and does not raise. On a page where the selector
matches nothing, `page.wait_for_selector` raises a TimeoutError that
propagates out of `scrape_data_from_page`; no empty-list entry is
produced. -/
theorem C5_absent_selector_counterexample :
    Scraper.scrape_data_from_page (fun _ => []) [⟨"title", "h1", "string"⟩] =
      .error .timeoutError ∧
    Scraper.scrape_data_from_page (fun _ => []) [⟨"title", "h1", "string"⟩] ≠
      .ok [("title", [])] := by
  refine ⟨rfl, by decide⟩

/-- C5 (amended): when the first remaining field matches no element, the
wait raises a TimeoutError that propagates out of single-page extraction:
no entry is recorded for that field and the remaining fields are not
extracted at all. -/
theorem C5_absent_selector_raises (page : String → List String) (item : FieldItem)
    (rest : List FieldItem) (h : page item.xpath = []) :
    Scraper.scrape_data_from_page page (item :: rest) = .error .timeoutError := by
  simp [Scraper.scrape_data_from_page, scrapeFields, h]

/-- C5 witness: the amended theorem applied to an empty page with one field
and one further field that would have matched. -/
theorem C5_absent_selector_raises_witness :
    Scraper.scrape_data_from_page
        (fun s => if s = "p" then ["text"] else []) [⟨"a", "h1", "string"⟩, ⟨"b", "p", "string"⟩] =
      .error .timeoutError :=
  C5_absent_selector_raises (fun s => if s = "p" then ["text"] else [])
    ⟨"a", "h1", "string"⟩ [⟨"b", "p", "string"⟩] rfl

/-- C6: record assembly zips per-field lists positionally. For any dict
with distinct keys, record `j` of the assembled output associates each
field name with entry `j` of that field's list exactly when that entry
exists (`vs[j]?`), so fields with shorter lists are simply absent from
later records; and the documented example assembles as stated. -/
theorem C6_record_zipping :
    (∀ (α : Type) (data : List (String × List α)), (data.map Prod.fst).Nodup →
       ∀ (k : String) (vs : List α), (k, vs) ∈ data → ∀ j : Nat,
         ((Parser.dict_with_lists_to_list_of_dicts data).getD j []).lookup k = vs[j]?) ∧
    Parser.dict_with_lists_to_list_of_dicts
        [("name", ["Alice", "Bob"]), ("age", ["30", "25"])] =
      [[("name", "Alice"), ("age", "30")], [("name", "Bob"), ("age", "25")]] := by
  refine ⟨fun α data h k vs hm j => dwl_lookup data h k vs hm j, by decide⟩

/-- C6 witness: the zipping theorem applied to a concrete two-field dict,
including an index where the shorter list has no entry. -/
theorem C6_record_zipping_witness :
    (([("name", ["Alice", "Bob"]), ("age", ["30"])].map
        (Prod.fst (α := String) (β := List String))).Nodup) ∧
    ((Parser.dict_with_lists_to_list_of_dicts
        [("name", ["Alice", "Bob"]), ("age", ["30"])]).getD 1 []).lookup "age" = none :=
  ⟨by decide,
   C6_record_zipping.1 String [("name", ["Alice", "Bob"]), ("age", ["30"])] (by decide)
     "age" ["30"] (by decide) 1⟩

/-- C10: record assembly returns exactly `maxLen data` records (the maximum
per-field list length, 0 for the empty dict), and record order is stable:
for a dict with distinct keys, the entry at index `j` of any field lands in
record `j` (and nowhere else, the lookup being `none` past the list). The
embedding is a pure function of the input dict, which the Python loop only
reads via `.items()`, so the input mapping is not mutated. -/
theorem C10_assembly_invariants :
    (∀ (α : Type) (data : List (String × List α)),
       (Scraper.parse_scraped_data data).length = maxLen data) ∧
    maxLen ([] : List (String × List String)) = 0 ∧
    (∀ (α : Type) (data : List (String × List α)), (data.map Prod.fst).Nodup →
       ∀ (k : String) (vs : List α), (k, vs) ∈ data → ∀ j : Nat,
         ((Scraper.parse_scraped_data data).getD j []).lookup k = vs[j]?) := by
  refine ⟨fun α data => dwl_length data, rfl,
    fun α data h k vs hm j => dwl_lookup data h k vs hm j⟩

/-- C10 witness: the invariants applied to a concrete dict with lists of
unequal length. -/
theorem C10_assembly_invariants_witness :
    (Scraper.parse_scraped_data [("a", ["x", "y"]), ("b", ["z"])]).length =
      maxLen [("a", ["x", "y"]), ("b", ["z"])] ∧
    ((Scraper.parse_scraped_data [("a", ["x", "y"]), ("b", ["z"])]).getD 1 []).lookup "a" =
      some "y" :=
  ⟨C10_assembly_invariants.1 String [("a", ["x", "y"]), ("b", ["z"])],
   C10_assembly_invariants.2.2 String [("a", ["x", "y"]), ("b", ["z"])] (by decide)
     "a" ["x", "y"] (by decide) 1⟩
